import Mathlib

/-!
Shallow embedding of `src/main.rs` of the tvprog-rust repository: a TV-guide
filter that selects evening programs on a fixed whitelist of channels.

Modelling conventions:
* Rust `String`/`&str` become Lean `String`; `chars()` is `String.data`.
* `chrono::DateTime::parse_from_str` with the fixed format `%Y%m%d%H%M%S %z`
  becomes `parse_from_str` below: exactly 4 year digits, 2 digits for each of
  month/day/hour/minute/second, a space, a mandatory sign and a 4-digit UTC
  offset, with chrono's field validation (valid calendar date, hour ≤ 23,
  minute/second ≤ 59, offset strictly inside ±24 h) and full consumption of
  the input.  A parse failure is chrono's `Err`, i.e. `none`.
* `.unwrap()` panics are modelled by `Option`: a function that can panic
  returns `none` exactly when the Rust code would panic, and the pipeline
  `filter_programs` propagates `none` (a panic aborts the whole run).
* `Local::today()` is an ambient input in the Rust code; it is passed
  explicitly as a `Date` argument `today`.
* `Duration::num_minutes` is whole-minute truncation toward zero of the
  signed second difference of the two absolute instants, i.e. `Int.tdiv _ 60`.
-/

/-- Calendar date, standing for chrono's `Date<Local>` as used via
`now.year()/month()/day()`. -/
structure Date where
  year : Int
  month : Nat
  day : Nat
deriving DecidableEq

/-- Parsed absolute timestamp with UTC offset, standing for chrono's
`DateTime<FixedOffset>`.  `offset` is the offset east of UTC in seconds. -/
structure TS where
  year : Int
  month : Nat
  day : Nat
  hour : Nat
  minute : Nat
  second : Nat
  offset : Int
deriving DecidableEq

/-- Rust struct `Program` (the display-ready program).  The Rust field `end`
is spelled `end_` because `end` is a Lean keyword. -/
structure Program where
  start : TS
  end_ : TS
  title : String
  channel : String
deriving DecidableEq

/-- Rust struct `XMLChannel`: a channel entry of the feed. -/
structure XMLChannel where
  id : String
  display_name : String
deriving DecidableEq

/-- Rust struct `XMLProgram`: a raw program entry of the feed. -/
structure XMLProgram where
  start : String
  stop : String
  channel : String
  title : String
deriving DecidableEq

/-- Rust struct `Xml`: the deserialized feed. -/
structure Xml where
  channels : List XMLChannel
  programs : List XMLProgram
deriving DecidableEq

/-- The fixed 19-entry channel whitelist `CHANNELS` of `main.rs`. -/
def CHANNELS : List String :=
  ["TF1", "France 2", "France 3", "Canal+", "France 5", "M6", "Arte", "C8",
   "W9", "TMC", "TFX", "NRJ 12", "France 4", "CSTAR", "L\x27Equipe", "6ter",
   "RMC Story", "RMC Découverte", "Chérie 25"]

/-- Numeric value of an ASCII digit character, `none` otherwise. -/
def digit_val (c : Char) : Option Nat :=
  if '0' ≤ c ∧ c ≤ '9' then some (c.toNat - '0'.toNat) else none

/-- Read exactly two digits from the front of a character list. -/
def read2 : List Char → Option (Nat × List Char)
  | c1 :: c2 :: rest =>
    match digit_val c1, digit_val c2 with
    | some a, some b => some (a * 10 + b, rest)
    | _, _ => none
  | _ => none

/-- Read exactly four digits from the front of a character list. -/
def read4 : List Char → Option (Nat × List Char)
  | c1 :: c2 :: c3 :: c4 :: rest =>
    match digit_val c1, digit_val c2, digit_val c3, digit_val c4 with
    | some a, some b, some c, some d => some (a * 1000 + b * 100 + c * 10 + d, rest)
    | _, _, _, _ => none
  | _ => none

/-- Gregorian leap-year test (chrono's calendar). -/
def is_leap_year (y : Int) : Bool :=
  y % 4 == 0 && (y % 100 != 0 || y % 400 == 0)

/-- Number of days in a month of the proleptic Gregorian calendar. -/
def days_in_month (y : Int) (m : Nat) : Nat :=
  if m = 2 then (if is_leap_year y then 29 else 28)
  else if m = 4 ∨ m = 6 ∨ m = 9 ∨ m = 11 then 30
  else 31

/-- Days since 1970-01-01 of a proleptic Gregorian date (the civil-days
algorithm chrono's date arithmetic agrees with). -/
def days_from_civil (y : Int) (m : Nat) (d : Nat) : Int :=
  let y2 : Int := if m ≤ 2 then y - 1 else y
  let era : Int := Int.fdiv y2 400
  let yoe : Int := y2 - era * 400
  let mp : Nat := (m + 9) % 12
  let doy : Int := ((153 * mp + 2) / 5 : Nat) + (d : Int) - 1
  let doe : Int := yoe * 365 + Int.fdiv yoe 4 - Int.fdiv yoe 100 + doy
  era * 146097 + doe - 719468

/-- Seconds since local midnight of a parsed timestamp: the order of chrono's
`NaiveTime` values (componentwise hour, minute, second comparison) coincides
with the order of this number. -/
def time_of_day (t : TS) : Nat :=
  t.hour * 3600 + t.minute * 60 + t.second

/-- Absolute instant of a parsed timestamp, as seconds since the epoch: local
date and clock reading minus the UTC offset.  `signed_duration_since` of two
`DateTime<FixedOffset>` values is the difference of these numbers. -/
def abs_seconds (t : TS) : Int :=
  days_from_civil t.year t.month t.day * 86400 + (time_of_day t : Int) - t.offset

/-- Embedding of `DateTime::parse_from_str(s, "%Y%m%d%H%M%S %z")`:
`YYYYMMDDHHMMSS ±HHMM`, fully consumed, with chrono's validity checks. -/
def parse_from_str (s : String) : Option TS := do
  let (y, r1) ← read4 s.data
  let (mo, r2) ← read2 r1
  let (d, r3) ← read2 r2
  let (h, r4) ← read2 r3
  let (mi, r5) ← read2 r4
  let (se, r6) ← read2 r5
  match r6 with
  | ' ' :: sgn :: r7 => do
    let neg ← match sgn with
      | '+' => some false
      | '-' => some true
      | _ => none
    let (oh, r8) ← read2 r7
    let (om, r9) ← read2 r8
    if r9 = [] ∧ 1 ≤ mo ∧ mo ≤ 12 ∧ 1 ≤ d ∧ d ≤ days_in_month (y : Int) mo ∧
        h ≤ 23 ∧ mi ≤ 59 ∧ se ≤ 59 ∧ om ≤ 59 ∧ oh * 3600 + om * 60 < 86400 then
      some ⟨(y : Int), mo, d, h, mi, se,
            if neg then -((oh * 3600 + om * 60 : Nat) : Int)
            else ((oh * 3600 + om * 60 : Nat) : Int)⟩
    else none
  | _ => none

/-- Rust `NaiveTime::from_hms(20, 45, 0)` as seconds since midnight. -/
def minimum_program_start : Nat := 20 * 3600 + 45 * 60

/-- Rust `NaiveTime::from_hms(21, 20, 0)` as seconds since midnight. -/
def maximum_program_start : Nat := 21 * 3600 + 20 * 60

/-- Embedding of `is_evening_program`.  `today` stands for `Local::today()`;
`none` models the panic of an `.unwrap()` on a timestamp that fails to
parse. -/
def is_evening_program (today : Date) (start_date : String) (end_date : String) :
    Option Bool := do
  let start_parsed ← parse_from_str start_date
  let end_parsed ← parse_from_str end_date
  let duration : Int := abs_seconds end_parsed - abs_seconds start_parsed
  some (decide (today.year = start_parsed.year ∧ today.month = start_parsed.month ∧
    today.day = start_parsed.day ∧
    minimum_program_start < time_of_day start_parsed ∧
    time_of_day start_parsed < maximum_program_start ∧
    35 < Int.tdiv duration 60))

/-- Embedding of `filter_channel_ids`: ids of the feed channels whose display
name is in the whitelist, in feed order. -/
def filter_channel_ids (channels : List XMLChannel) : List String :=
  (channels.filter (fun channel => CHANNELS.contains channel.display_name)).map
    (fun channel => channel.id)

/-- Embedding of `channel_id_to_name`: display name of the first feed channel
whose id matches.  The Rust `.unwrap()` panic on a missing id is the `none`
case. -/
def channel_id_to_name (channel_id : String) (channels : List XMLChannel) :
    Option String :=
  (channels.find? (fun channel => channel.id == channel_id)).map
    (fun channel => channel.display_name)

/-- The map stage of `filter_programs`: build a `Program` from a surviving
`XMLProgram` (re-parsing both timestamps and resolving the channel name);
`none` models a panic of any of the three `.unwrap()`s. -/
def mk_program (channels : List XMLChannel) (p : XMLProgram) : Option Program := do
  let s ← parse_from_str p.start
  let e ← parse_from_str p.stop
  let name ← channel_id_to_name p.channel channels
  some ⟨s, e, p.title, name⟩

/-- The map stage applied to a whole list of programs in order: `some` of the
list of built `Program`s, or `none` if any construction panics.  This is the
denotation used to express that the output of `filter_programs` is the map
stage applied to an order-preserving subsequence of the feed. -/
def map_programs (channels : List XMLChannel) : List XMLProgram → Option (List Program)
  | [] => some []
  | p :: ps => do
    let prog ← mk_program channels p
    let rest ← map_programs channels ps
    some (prog :: rest)

/-- The iterator chain of `filter_programs`, one program at a time: the
whitelist-membership filter runs first, then the evening predicate (which
parses and can panic), then the `Program` construction.  `none` anywhere
models a panic aborting the whole run. -/
def filter_programs_aux (today : Date) (channels : List XMLChannel)
    (ids : List String) : List XMLProgram → Option (List Program)
  | [] => some []
  | p :: ps =>
    if ids.contains p.channel then
      match is_evening_program today p.start p.stop with
      | none => none
      | some false => filter_programs_aux today channels ids ps
      | some true => do
        let prog ← mk_program channels p
        let rest ← filter_programs_aux today channels ids ps
        some (prog :: rest)
    else filter_programs_aux today channels ids ps

/-- Embedding of `filter_programs`. -/
def filter_programs (today : Date) (xml : Xml) : Option (List Program) :=
  filter_programs_aux today xml.channels (filter_channel_ids xml.channels)
    xml.programs

/-- Embedding of `str_truncate`: keep the first `limit` characters (Unicode
scalar values, as Rust `chars()` does). -/
def str_truncate (string : String) (limit : Nat) : String :=
  ⟨string.data.take limit⟩

/-! ## Helper lemmas -/

lemma contains_iff_mem {l : List String} {a : String} :
    l.contains a = true ↔ a ∈ l :=
  List.elem_iff

lemma mem_filter_channel_ids {channels : List XMLChannel} {i : String} :
    i ∈ filter_channel_ids channels ↔
      ∃ c ∈ channels, c.id = i ∧ c.display_name ∈ CHANNELS := by
  simp only [filter_channel_ids, List.mem_map, List.mem_filter]
  constructor
  · rintro ⟨c, ⟨hc, hw⟩, hid⟩
    exact ⟨c, hc, hid, by simpa using hw⟩
  · rintro ⟨c, hc, hid, hw⟩
    exact ⟨c, ⟨hc, by simpa using hw⟩, hid⟩

lemma is_evening_program_parse (today : Date) {s e : String} {sp ep : TS}
    (hs : parse_from_str s = some sp) (he : parse_from_str e = some ep) :
    is_evening_program today s e =
      some (decide (today.year = sp.year ∧ today.month = sp.month ∧
        today.day = sp.day ∧
        minimum_program_start < time_of_day sp ∧
        time_of_day sp < maximum_program_start ∧
        35 < Int.tdiv (abs_seconds ep - abs_seconds sp) 60)) := by
  simp [is_evening_program, hs, he]

lemma is_evening_program_none (today : Date) {s e : String}
    (h : parse_from_str s = none ∨ parse_from_str e = none) :
    is_evening_program today s e = none := by
  rcases h with h | h
  · simp [is_evening_program, h]
  · cases hs : parse_from_str s <;> simp [is_evening_program, hs, h]

lemma tdiv_sixty_gt (d : Int) : 35 < Int.tdiv d 60 ↔ 2160 ≤ d := by
  cases d with
  | ofNat n =>
    have h : Int.tdiv (Int.ofNat n) 60 = Int.ofNat (n / 60) := rfl
    rw [h, Int.ofNat_eq_natCast, Int.ofNat_eq_natCast]
    constructor
    · intro hlt
      have h1 : 35 < n / 60 := by exact_mod_cast hlt
      have h2 : 36 * 60 ≤ n := (Nat.le_div_iff_mul_le (by norm_num)).mp (by omega)
      exact_mod_cast (by omega : 2160 ≤ n)
    · intro hge
      have h1 : 2160 ≤ n := by exact_mod_cast hge
      have h2 : 36 ≤ n / 60 := (Nat.le_div_iff_mul_le (by norm_num)).mpr (by omega)
      exact_mod_cast (by omega : 35 < n / 60)
  | negSucc n =>
    have h : Int.tdiv (Int.negSucc n) 60 = -Int.ofNat ((n + 1) / 60) := rfl
    rw [h]
    constructor
    · intro hlt
      exfalso
      have h0 : (0 : Int) ≤ Int.ofNat ((n + 1) / 60) := Int.ofNat_nonneg _
      linarith
    · intro hge
      exfalso
      have h0 : Int.negSucc n < 0 := Int.negSucc_lt_zero n
      linarith

/-! ## Claims -/

/-- C2, counterexample: a program starting today at 20:50 local with all
other predicates satisfied and a duration of exactly 35 minutes 1 second is
EXCLUDED by `is_evening_program` (because `num_minutes` truncates 35 min 1 s
to 35 whole minutes and the test is `> 35`), refuting the claim that a
duration of 35 minutes 1 second is included; the same program with a
36-minute duration is included. -/
theorem C2_counterexample :
    is_evening_program ⟨2024, 1, 15⟩ "20240115205000 +0100" "20240115212501 +0100"
      = some false ∧
    is_evening_program ⟨2024, 1, 15⟩ "20240115205000 +0100" "20240115212600 +0100"
      = some true := by
  constructor <;> decide

/-- C2, amended: for well-formed timestamps the evening predicate includes a
program only if the truncated whole-minute count of its duration exceeds 35,
i.e. the duration is at least 36 full minutes (2160 seconds): exactly
35 minutes is excluded, 35 minutes 1 second through 35 minutes 59 seconds are
also excluded, and 36 minutes is included, subject to the other predicates. -/
theorem C2_duration_at_least_36_minutes (today : Date) (s e : String) (sp ep : TS)
    (hs : parse_from_str s = some sp) (he : parse_from_str e = some ep) :
    is_evening_program today s e = some true ↔
      (today.year = sp.year ∧ today.month = sp.month ∧ today.day = sp.day ∧
       minimum_program_start < time_of_day sp ∧
       time_of_day sp < maximum_program_start ∧
       2160 ≤ abs_seconds ep - abs_seconds sp) := by
  rw [is_evening_program_parse today hs he]
  simp [tdiv_sixty_gt]

/-- C2, witness for the amended theorem at a concrete program (20:50 today,
36-minute duration). -/
theorem C2_duration_at_least_36_minutes_witness :
    is_evening_program ⟨2024, 1, 15⟩ "20240115205000 +0100" "20240115212600 +0100"
        = some true ↔
      ((⟨2024, 1, 15⟩ : Date).year = (2024 : Int) ∧
       (⟨2024, 1, 15⟩ : Date).month = 1 ∧ (⟨2024, 1, 15⟩ : Date).day = 15 ∧
       minimum_program_start < time_of_day ⟨2024, 1, 15, 20, 50, 0, 3600⟩ ∧
       time_of_day ⟨2024, 1, 15, 20, 50, 0, 3600⟩ < maximum_program_start ∧
       2160 ≤ abs_seconds ⟨2024, 1, 15, 21, 26, 0, 3600⟩ -
         abs_seconds ⟨2024, 1, 15, 20, 50, 0, 3600⟩) :=
  C2_duration_at_least_36_minutes ⟨2024, 1, 15⟩ _ _
    ⟨2024, 1, 15, 20, 50, 0, 3600⟩ ⟨2024, 1, 15, 21, 26, 0, 3600⟩
    (by decide) (by decide)

/-- C5: for a well-formed start timestamp, the evening predicate includes a
program only if its start time-of-day lies strictly between 20:45:00
(`minimum_program_start`) and 21:20:00 (`maximum_program_start`), and
conversely a start strictly inside that open window is included whenever the
date and duration predicates also hold — so 20:45:00 and 21:20:00 starts are
excluded while 20:45:01 and 21:19:59 are included subject to the other
predicates. -/
theorem C5_start_window_exclusive (today : Date) (s e : String) (sp : TS)
    (hs : parse_from_str s = some sp) :
    (is_evening_program today s e = some true →
      minimum_program_start < time_of_day sp ∧
      time_of_day sp < maximum_program_start) ∧
    (∀ ep : TS, parse_from_str e = some ep →
      today.year = sp.year → today.month = sp.month → today.day = sp.day →
      35 < Int.tdiv (abs_seconds ep - abs_seconds sp) 60 →
      minimum_program_start < time_of_day sp →
      time_of_day sp < maximum_program_start →
      is_evening_program today s e = some true) := by
  constructor
  · intro h
    cases he : parse_from_str e with
    | none => rw [is_evening_program_none today (Or.inr he)] at h; cases h
    | some ep =>
      rw [is_evening_program_parse today hs he] at h
      simp only [Option.some_inj, decide_eq_true_eq] at h
      exact ⟨h.2.2.2.1, h.2.2.2.2.1⟩
  · intro ep he h1 h2 h3 h4 h5 h6
    rw [is_evening_program_parse today hs he]
    simp [h1, h2, h3, h4, h5, h6]

/-- C5, witness at a concrete program starting at 20:45:01 today with a
40-minute duration: both directions apply and the program is included. -/
theorem C5_start_window_exclusive_witness :
    is_evening_program ⟨2024, 1, 15⟩ "20240115204501 +0100" "20240115212501 +0100"
      = some true :=
  (C5_start_window_exclusive ⟨2024, 1, 15⟩ "20240115204501 +0100"
      "20240115212501 +0100" ⟨2024, 1, 15, 20, 45, 1, 3600⟩ (by decide)).2
    ⟨2024, 1, 15, 21, 25, 1, 3600⟩ (by decide) (by decide) (by decide) (by decide)
    (by decide) (by decide) (by decide)

/-- C6: for a well-formed start timestamp, the evening predicate includes a
program only if the start timestamp's year, month and day all equal the
caller's current local date (`today`, the explicit stand-in for
`Local::today()`): any program whose start date is not today is excluded. -/
theorem C6_start_date_is_today (today : Date) (s e : String) (sp : TS)
    (hs : parse_from_str s = some sp)
    (h : is_evening_program today s e = some true) :
    today.year = sp.year ∧ today.month = sp.month ∧ today.day = sp.day := by
  cases he : parse_from_str e with
  | none => rw [is_evening_program_none today (Or.inr he)] at h; cases h
  | some ep =>
    rw [is_evening_program_parse today hs he] at h
    simp only [Option.some_inj, decide_eq_true_eq] at h
    exact ⟨h.1, h.2.1, h.2.2.1⟩

/-- C6, witness at a concrete program starting today. -/
theorem C6_start_date_is_today_witness :
    (⟨2024, 1, 15⟩ : Date).year = (⟨2024, 1, 15, 20, 50, 0, 3600⟩ : TS).year ∧
    (⟨2024, 1, 15⟩ : Date).month = (⟨2024, 1, 15, 20, 50, 0, 3600⟩ : TS).month ∧
    (⟨2024, 1, 15⟩ : Date).day = (⟨2024, 1, 15, 20, 50, 0, 3600⟩ : TS).day :=
  C6_start_date_is_today ⟨2024, 1, 15⟩ "20240115205000 +0100"
    "20240115213000 +0100" ⟨2024, 1, 15, 20, 50, 0, 3600⟩ (by decide) (by decide)

/-- C7: `str_truncate` keeps exactly the first 55 characters (Unicode scalar
values, as Rust `chars()` counts) with nothing appended — the result never
exceeds 55 characters and there is no ellipsis marker — and a title of 55 or
fewer characters is returned unchanged. -/
theorem C7_truncate_55 (s : String) :
    str_truncate s 55 = ⟨s.data.take 55⟩ ∧
    (str_truncate s 55).length ≤ 55 ∧
    (s.length ≤ 55 → str_truncate s 55 = s) := by
  refine ⟨rfl, ?_, ?_⟩
  · show (s.data.take 55).length ≤ 55
    simp [List.length_take]
  · intro h
    show String.mk (s.data.take 55) = s
    rw [List.take_of_length_le h]

/-- C7, witness at a concrete short title: it is returned unchanged. -/
theorem C7_truncate_55_witness :
    str_truncate "Le Film" 55 = "Le Film" :=
  (C7_truncate_55 "Le Film").2.2 (by decide)

/-- Unfolding of one step of the iterator chain. -/
lemma filter_programs_aux_cons (today : Date) (channels : List XMLChannel)
    (ids : List String) (q : XMLProgram) (l : List XMLProgram) :
    filter_programs_aux today channels ids (q :: l) =
      if q.channel ∈ ids then
        match is_evening_program today q.start q.stop with
        | none => none
        | some false => filter_programs_aux today channels ids l
        | some true => (mk_program channels q).bind (fun prog =>
            (filter_programs_aux today channels ids l).bind
              (fun rest => some (prog :: rest)))
      else filter_programs_aux today channels ids l := by
  simp [filter_programs_aux]

/-- The iterator chain distributes over list append. -/
lemma filter_programs_aux_append (today : Date) (channels : List XMLChannel)
    (ids : List String) (l2 : List XMLProgram) :
    ∀ l1 : List XMLProgram,
      filter_programs_aux today channels ids (l1 ++ l2) =
        (filter_programs_aux today channels ids l1).bind
          (fun out1 => (filter_programs_aux today channels ids l2).map
            (fun out2 => out1 ++ out2)) := by
  intro l1
  induction l1 with
  | nil =>
    cases h2 : filter_programs_aux today channels ids l2 <;>
      simp [filter_programs_aux, h2]
  | cons q l1 ih =>
    rw [List.cons_append, filter_programs_aux_cons, filter_programs_aux_cons]
    by_cases hq : q.channel ∈ ids
    · rw [if_pos hq, if_pos hq]
      cases hev : is_evening_program today q.start q.stop with
      | none => simp
      | some b =>
        cases b with
        | false => exact ih
        | true =>
          cases hmk : mk_program channels q with
          | none => simp
          | some prog =>
            simp only [Option.some_bind]
            rw [ih]
            cases h1 : filter_programs_aux today channels ids l1 <;>
              cases h2 : filter_programs_aux today channels ids l2 <;> simp [h1, h2]
    · rw [if_neg hq, if_neg hq]
      exact ih

/-- A program whose channel id is not among the filtered ids is skipped
without any of its fields being inspected. -/
lemma filter_programs_aux_drop (today : Date) (channels : List XMLChannel)
    (ids : List String) (p : XMLProgram) (hp : p.channel ∉ ids)
    (pre post : List XMLProgram) :
    filter_programs_aux today channels ids (pre ++ p :: post) =
      filter_programs_aux today channels ids (pre ++ post) := by
  have h : filter_programs_aux today channels ids (p :: post) =
      filter_programs_aux today channels ids post := by
    rw [filter_programs_aux_cons, if_neg hp]
  rw [filter_programs_aux_append, filter_programs_aux_append]
  simp only [h]

/-- If any program passing the whitelist filter makes the evening predicate
panic, the whole run panics. -/
lemma filter_programs_aux_fatal (today : Date) (channels : List XMLChannel)
    (ids : List String) (p : XMLProgram) (hc : p.channel ∈ ids)
    (hev : is_evening_program today p.start p.stop = none)
    (l : List XMLProgram) (hmem : p ∈ l) :
    filter_programs_aux today channels ids l = none := by
  obtain ⟨l1, l2, rfl⟩ := List.append_of_mem hmem
  have h : filter_programs_aux today channels ids (p :: l2) = none := by
    simp [filter_programs_aux_cons, hc, hev]
  rw [filter_programs_aux_append]
  cases h1 : filter_programs_aux today channels ids l1 <;> simp [h1, h]

/-- A successful run's output is the map stage applied to a subsequence of
the input consisting of whitelisted programs. -/
lemma filter_programs_aux_sublist (today : Date) (channels : List XMLChannel)
    (ids : List String) :
    ∀ (l : List XMLProgram) (out : List Program),
      filter_programs_aux today channels ids l = some out →
      ∃ ps : List XMLProgram, ps.Sublist l ∧ (∀ p ∈ ps, p.channel ∈ ids) ∧
        map_programs channels ps = some out := by
  intro l
  induction l with
  | nil =>
    intro out h
    simp only [filter_programs_aux, Option.some_inj] at h
    subst h
    exact ⟨[], List.Sublist.slnil, by simp, rfl⟩
  | cons q rest ih =>
    intro out h
    rw [filter_programs_aux_cons] at h
    by_cases hq : q.channel ∈ ids
    · rw [if_pos hq] at h
      cases hev : is_evening_program today q.start q.stop with
      | none => rw [hev] at h; simp at h
      | some b =>
        rw [hev] at h
        cases b with
        | false =>
          obtain ⟨ps, hsub, hall, hmap⟩ := ih out h
          exact ⟨ps, hsub.cons q, hall, hmap⟩
        | true =>
          have h2 : (mk_program channels q).bind (fun prog =>
              (filter_programs_aux today channels ids rest).bind
                (fun rest2 => some (prog :: rest2))) = some out := h
          clear h
          cases hmk : mk_program channels q with
          | none => rw [hmk] at h2; simp at h2
          | some prog =>
            rw [hmk] at h2
            simp only [Option.some_bind] at h2
            cases hrest : filter_programs_aux today channels ids rest with
            | none => rw [hrest] at h2; simp at h2
            | some out2 =>
              rw [hrest] at h2
              simp only [Option.some_bind, Option.some_inj] at h2
              subst h2
              obtain ⟨ps, hsub, hall, hmap⟩ := ih out2 hrest
              refine ⟨q :: ps, hsub.cons₂ q, ?_, ?_⟩
              · intro p hp
                rcases List.mem_cons.mp hp with rfl | hp2
                · exact hq
                · exact hall p hp2
              · simp [map_programs, hmk, hmap]
    · rw [if_neg hq] at h
      obtain ⟨ps, hsub, hall, hmap⟩ := ih out h
      exact ⟨ps, hsub.cons q, hall, hmap⟩

/-- Every program of the output of the map stage is built from some program
of its input. -/
lemma map_programs_mem (channels : List XMLChannel) :
    ∀ (l : List XMLProgram) (out : List Program),
      map_programs channels l = some out →
      ∀ q ∈ out, ∃ p ∈ l, mk_program channels p = some q := by
  intro l
  induction l with
  | nil =>
    intro out h q hq
    simp only [map_programs, Option.some_inj] at h
    subst h
    cases hq
  | cons a l ih =>
    intro out h q hq
    simp only [map_programs, bind, Option.bind_eq_bind] at h
    cases hma : mk_program channels a with
    | none => rw [hma] at h; simp at h
    | some b =>
      rw [hma] at h
      simp only [Option.some_bind] at h
      cases hml : map_programs channels l with
      | none => rw [hml] at h; simp at h
      | some out2 =>
        rw [hml] at h
        simp only [Option.some_bind, Option.some_inj] at h
        subst h
        rcases List.mem_cons.mp hq with rfl | hq2
        · exact ⟨a, List.mem_cons_self a l, hma⟩
        · obtain ⟨p, hp, hmk⟩ := ih out2 hml q hq2
          exact ⟨p, List.mem_cons_of_mem a hp, hmk⟩

/-- C1, counterexample: a feed whose only program references channel id
`zzz`, which has no entry in the channel list, while its timestamps are valid
and inside the evening window on the current date.  The run does NOT fail: it
succeeds with the program silently dropped (the whitelist-membership filter
removes it before the resolver is ever consulted), refuting the claim that
such a program aborts the whole run. -/
theorem C1_counterexample :
    filter_programs ⟨2024, 1, 15⟩
      ⟨[⟨"c1", "TF1"⟩],
       [⟨"20240115205000 +0100", "20240115213000 +0100", "zzz", "Film"⟩]⟩
      = some [] := by
  decide

/-- C1, amended: a program whose channel id has no entry in the channel list
is silently dropped by the whitelist-membership filter (removing it from the
feed leaves the result of the run unchanged) and the run does not fail on its
account; the resolver `channel_id_to_name` itself does fail on an id absent
from the channel list, but `filter_programs` never invokes it on one. -/
theorem C1_missing_channel_silently_dropped :
    (∀ (today : Date) (channels : List XMLChannel) (pre post : List XMLProgram)
       (p : XMLProgram), (∀ c ∈ channels, c.id ≠ p.channel) →
       filter_programs today ⟨channels, pre ++ p :: post⟩ =
         filter_programs today ⟨channels, pre ++ post⟩) ∧
    (∀ (i : String) (channels : List XMLChannel),
       (∀ c ∈ channels, c.id ≠ i) → channel_id_to_name i channels = none) := by
  constructor
  · intro today channels pre post p h
    have hp : p.channel ∉ filter_channel_ids channels := by
      intro hmem
      obtain ⟨c, hcmem, hcid, _⟩ := mem_filter_channel_ids.mp hmem
      exact h c hcmem hcid
    exact filter_programs_aux_drop today channels _ p hp pre post
  · intro i channels h
    have hfind : channels.find? (fun channel => channel.id == i) = none := by
      rw [List.find?_eq_none]
      intro c hcmem
      simp [h c hcmem]
    simp [channel_id_to_name, hfind]

/-- C1, witness for the amended theorem at a concrete feed. -/
theorem C1_missing_channel_silently_dropped_witness :
    filter_programs ⟨2024, 1, 15⟩
        ⟨[⟨"c1", "TF1"⟩],
         [] ++ ⟨"20240115210000 +0100", "20240115220000 +0100", "zzz", "Film"⟩ :: []⟩
      = filter_programs ⟨2024, 1, 15⟩ ⟨[⟨"c1", "TF1"⟩], [] ++ []⟩ ∧
    channel_id_to_name "zzz" [⟨"c1", "TF1"⟩] = none :=
  ⟨C1_missing_channel_silently_dropped.1 ⟨2024, 1, 15⟩ [⟨"c1", "TF1"⟩] [] []
      ⟨"20240115210000 +0100", "20240115220000 +0100", "zzz", "Film"⟩ (by decide),
   C1_missing_channel_silently_dropped.2 "zzz" [⟨"c1", "TF1"⟩] (by decide)⟩

/-- C3, counterexample: a feed whose only program has malformed start and
stop timestamps but sits on a channel (`NotListed`) that is in the channel
list and not in the whitelist.  The run does NOT abort: the whitelist filter
drops the program before its timestamps are ever parsed, refuting the claim
that a malformed timestamp is fatal even for a program whose channel is not in
the whitelist. -/
theorem C3_counterexample :
    filter_programs ⟨2024, 1, 15⟩
      ⟨[⟨"c2", "NotListed"⟩], [⟨"garbage", "garbage", "c2", "X"⟩]⟩
      = some [] := by
  decide

/-- C3, amended: a start or stop timestamp failing the fixed format
`YYYYMMDDHHMMSS ±HHMM` aborts the entire run for any program whose channel id
passes the whitelist filter (even one the evening-window predicate would have
rejected), but a program dropped by the whitelist filter never has its
timestamps parsed, so its malformed timestamps are not fatal. -/
theorem C3_malformed_fatal_if_whitelisted (today : Date) (xml : Xml)
    (p : XMLProgram) (hmem : p ∈ xml.programs)
    (hc : p.channel ∈ filter_channel_ids xml.channels)
    (hbad : parse_from_str p.start = none ∨ parse_from_str p.stop = none) :
    filter_programs today xml = none :=
  filter_programs_aux_fatal today xml.channels _ p hc
    (is_evening_program_none today hbad) xml.programs hmem

/-- C3, witness for the amended theorem: a malformed start timestamp on a
whitelisted channel aborts the run. -/
theorem C3_malformed_fatal_if_whitelisted_witness :
    filter_programs ⟨2024, 1, 15⟩
      ⟨[⟨"c1", "TF1"⟩], [⟨"garbage", "20240115213000 +0100", "c1", "X"⟩]⟩
      = none :=
  C3_malformed_fatal_if_whitelisted ⟨2024, 1, 15⟩
    ⟨[⟨"c1", "TF1"⟩], [⟨"garbage", "20240115213000 +0100", "c1", "X"⟩]⟩
    ⟨"garbage", "20240115213000 +0100", "c1", "X"⟩
    (by decide) (by decide) (Or.inl (by decide))

/-- C4: a program whose channel has no whitelisted display name in the
channel list is absent from the output regardless of its timestamps — removing
it from the feed leaves the run's result (success or failure) unchanged — and
a feed with no programs yields the empty output without error, so whitelist
names missing from the feed simply produce no programs. -/
theorem C4_non_whitelisted_channel_absent :
    (∀ (today : Date) (channels : List XMLChannel) (pre post : List XMLProgram)
       (p : XMLProgram),
       (∀ c ∈ channels, c.id = p.channel → c.display_name ∉ CHANNELS) →
       filter_programs today ⟨channels, pre ++ p :: post⟩ =
         filter_programs today ⟨channels, pre ++ post⟩) ∧
    (∀ (today : Date) (channels : List XMLChannel),
       filter_programs today ⟨channels, []⟩ = some []) := by
  constructor
  · intro today channels pre post p h
    have hp : p.channel ∉ filter_channel_ids channels := by
      intro hmem
      obtain ⟨c, hcmem, hcid, hcw⟩ := mem_filter_channel_ids.mp hmem
      exact h c hcmem hcid hcw
    exact filter_programs_aux_drop today channels _ p hp pre post
  · intro today channels
    rfl

/-- C4, witness at a concrete feed: the dropped program even has malformed
timestamps, showing exclusion happens regardless of timing. -/
theorem C4_non_whitelisted_channel_absent_witness :
    filter_programs ⟨2024, 1, 15⟩
        ⟨[⟨"c1", "Pas Connue"⟩], [] ++ ⟨"garbage", "garbage", "c1", "X"⟩ :: []⟩
      = filter_programs ⟨2024, 1, 15⟩ ⟨[⟨"c1", "Pas Connue"⟩], [] ++ []⟩ ∧
    filter_programs ⟨2024, 1, 15⟩ ⟨[⟨"c1", "Pas Connue"⟩], []⟩ = some [] :=
  ⟨C4_non_whitelisted_channel_absent.1 ⟨2024, 1, 15⟩ [⟨"c1", "Pas Connue"⟩] [] []
      ⟨"garbage", "garbage", "c1", "X"⟩ (by decide),
   C4_non_whitelisted_channel_absent.2 ⟨2024, 1, 15⟩ [⟨"c1", "Pas Connue"⟩]⟩

/-- C8: whenever the filter/map stage succeeds, its output is the map stage
applied to an order-preserving subsequence (`List.Sublist`) of the feed's
program list: output programs appear in original feed order with no sorting
or reordering. -/
theorem C8_output_is_ordered_subsequence (today : Date) (xml : Xml)
    (out : List Program) (h : filter_programs today xml = some out) :
    ∃ ps : List XMLProgram, ps.Sublist xml.programs ∧
      map_programs xml.channels ps = some out := by
  obtain ⟨ps, hsub, _, hmap⟩ :=
    filter_programs_aux_sublist today xml.channels
      (filter_channel_ids xml.channels) xml.programs out h
  exact ⟨ps, hsub, hmap⟩

/-- C8, witness at a concrete one-program feed. -/
theorem C8_output_is_ordered_subsequence_witness :
    ∃ ps : List XMLProgram,
      ps.Sublist [⟨"20240115205000 +0100", "20240115213000 +0100", "c1", "Film"⟩] ∧
      map_programs [⟨"c1", "TF1"⟩] ps =
        some [⟨⟨2024, 1, 15, 20, 50, 0, 3600⟩, ⟨2024, 1, 15, 21, 30, 0, 3600⟩,
          "Film", "TF1"⟩] :=
  C8_output_is_ordered_subsequence ⟨2024, 1, 15⟩
    ⟨[⟨"c1", "TF1"⟩], [⟨"20240115205000 +0100", "20240115213000 +0100", "c1", "Film"⟩]⟩
    [⟨⟨2024, 1, 15, 20, 50, 0, 3600⟩, ⟨2024, 1, 15, 21, 30, 0, 3600⟩, "Film", "TF1"⟩]
    (by decide)

/-- C9: the channel-id lookup inside the filter/map stage cannot fail: any
id accepted by the whitelist filter occurs as the id of some channel of the
feed's channel list, and on such an id the resolver `channel_id_to_name`
returns a name — its error branch (the Rust `.unwrap()` panic) is unreachable
from `filter_programs`. -/
theorem C9_resolver_unreachable (channels : List XMLChannel) (i : String)
    (h : (filter_channel_ids channels).contains i = true) :
    (∃ c ∈ channels, c.id = i) ∧ (channel_id_to_name i channels).isSome = true := by
  obtain ⟨c, hcmem, hcid, _⟩ := mem_filter_channel_ids.mp (contains_iff_mem.mp h)
  refine ⟨⟨c, hcmem, hcid⟩, ?_⟩
  have hfind : (channels.find? (fun channel => channel.id == i)).isSome :=
    List.find?_isSome.mpr ⟨c, hcmem, by simp [hcid]⟩
  obtain ⟨c0, hc0⟩ := Option.isSome_iff_exists.mp hfind
  simp [channel_id_to_name, hc0]

/-- C9, witness at a concrete channel list. -/
theorem C9_resolver_unreachable_witness :
    (∃ c ∈ [(⟨"c1", "TF1"⟩ : XMLChannel)], c.id = "c1") ∧
    (channel_id_to_name "c1" [⟨"c1", "TF1"⟩]).isSome = true :=
  C9_resolver_unreachable [⟨"c1", "TF1"⟩] "c1" (by decide)

/-- C10: the resolver returns the display name of the FIRST channel in the
feed's channel list whose id matches; if channel ids are pairwise distinct,
every program of a successful output has a channel name among the fixed 19
whitelist strings; and with duplicate ids an output channel name can fall
outside the whitelist, witnessed by a feed listing id `c1` first with the
non-whitelisted name `Zzz` and again with `TF1`. -/
theorem C10_first_match_resolution :
    (∀ (i : String) (pre post : List XMLChannel) (c : XMLChannel),
       c.id = i → (∀ c2 ∈ pre, c2.id ≠ i) →
       channel_id_to_name i (pre ++ c :: post) = some c.display_name) ∧
    (∀ (today : Date) (xml : Xml) (out : List Program),
       xml.channels.Pairwise (fun a b => a.id ≠ b.id) →
       filter_programs today xml = some out →
       ∀ q ∈ out, q.channel ∈ CHANNELS) ∧
    (filter_programs ⟨2024, 1, 15⟩
        ⟨[⟨"c1", "Zzz"⟩, ⟨"c1", "TF1"⟩],
         [⟨"20240115205000 +0100", "20240115213000 +0100", "c1", "Film"⟩]⟩
      = some [⟨⟨2024, 1, 15, 20, 50, 0, 3600⟩, ⟨2024, 1, 15, 21, 30, 0, 3600⟩,
          "Film", "Zzz"⟩] ∧
     "Zzz" ∉ CHANNELS) := by
  refine ⟨?_, ?_, by decide, by decide⟩
  · intro i pre post c hci
    induction pre with
    | nil =>
      intro _
      have hpc : (c.id == i) = true := by simp [hci]
      simp [channel_id_to_name, hpc]
    | cons q pre ih =>
      intro hpre
      have hq : ¬((q.id == i) = true) := by
        simp [hpre q (List.mem_cons_self q pre)]
      have ih2 := ih (fun c2 hc2 => hpre c2 (List.mem_cons_of_mem q hc2))
      simp only [channel_id_to_name, List.cons_append] at ih2 ⊢
      have hstep : List.find? (fun channel => channel.id == i)
            (q :: (pre ++ c :: post)) =
          List.find? (fun channel => channel.id == i) (pre ++ c :: post) :=
        List.find?_cons_of_neg _ hq
      rw [hstep]
      exact ih2
  · intro today xml out huniq h
    obtain ⟨ps, hsub, hall, hmap⟩ :=
      filter_programs_aux_sublist today xml.channels
        (filter_channel_ids xml.channels) xml.programs out h
    intro q hq
    obtain ⟨p, hp, hmk⟩ := map_programs_mem xml.channels ps out hmap q hq
    obtain ⟨c, hcmem, hcid, hcw⟩ := mem_filter_channel_ids.mp (hall p hp)
    simp only [mk_program, bind, Option.bind_eq_bind] at hmk
    cases hs : parse_from_str p.start with
    | none => rw [hs] at hmk; simp at hmk
    | some sp =>
      rw [hs] at hmk
      simp only [Option.some_bind] at hmk
      cases he : parse_from_str p.stop with
      | none => rw [he] at hmk; simp at hmk
      | some ep =>
        rw [he] at hmk
        simp only [Option.some_bind] at hmk
        cases hnm : channel_id_to_name p.channel xml.channels with
        | none => rw [hnm] at hmk; simp at hmk
        | some nm =>
          rw [hnm] at hmk
          simp only [Option.some_bind, Option.some_inj] at hmk
          have hqc : q.channel = nm := by rw [← hmk]
          simp only [channel_id_to_name] at hnm
          obtain ⟨c0, hfind, hdn⟩ := Option.map_eq_some'.mp hnm
          have hc0mem := List.mem_of_find?_eq_some hfind
          have hc0id : c0.id = p.channel := by simpa using List.find?_some hfind
          have hceq : c0 = c := by
            by_contra hne
            have hsymm : Symmetric (fun a b : XMLChannel => a.id ≠ b.id) :=
              fun a b hab e => hab e.symm
            exact (List.Pairwise.forall hsymm huniq hc0mem hcmem hne)
              (hc0id.trans hcid.symm)
          rw [hqc, ← hdn, hceq]
          exact hcw

/-- C10, witness applying the first-match and uniqueness parts at concrete
inputs. -/
theorem C10_first_match_resolution_witness :
    channel_id_to_name "c1" ([] ++ (⟨"c1", "TF1"⟩ : XMLChannel) :: []) = some "TF1" ∧
    (∀ q ∈ [(⟨⟨2024, 1, 15, 20, 50, 0, 3600⟩, ⟨2024, 1, 15, 21, 30, 0, 3600⟩,
        "Film", "TF1"⟩ : Program)], q.channel ∈ CHANNELS) :=
  ⟨C10_first_match_resolution.1 "c1" [] [] ⟨"c1", "TF1"⟩ (by decide) (by decide),
   C10_first_match_resolution.2.1 ⟨2024, 1, 15⟩
     ⟨[⟨"c1", "TF1"⟩],
      [⟨"20240115205000 +0100", "20240115213000 +0100", "c1", "Film"⟩]⟩
     [⟨⟨2024, 1, 15, 20, 50, 0, 3600⟩, ⟨2024, 1, 15, 21, 30, 0, 3600⟩,
        "Film", "TF1"⟩]
     (by decide) (by decide)⟩
